import Mathlib

/-!
Shallow embedding of the workflow execution engine in
`src/engine/workflow_engine.py` (class `WorkflowEngine`), together with the
pieces of its data model needed to settle the specification claims:
dates (`_parse_date`, `_format_date`, Python `strftime`/`strptime`
behaviour for the formats the engine uses), the variable resolver
(`_resolve_variable`), the step dispatcher (`_execute_step` / `run`),
the two loop sub-engines (`_execute_loop_vat_returns`,
`_execute_loop_elements`), the column-selection handler
(`_execute_select_columns`) and download-filename generation
(`_format_download_filename`, `_format_date_compact`).

Browser interactions are modelled by oracles (functions supplied as
parameters) describing what the page returns / whether a click succeeds;
everything else is translated directly from the Python source.
-/

namespace Xero

/-! ### Dates

Python `datetime.date` values (the engine only ever uses midnight
datetimes, so a calendar date suffices).  Chronological comparison and
`timedelta(days=n)` arithmetic are modelled through the standard
civil-calendar ↔ day-number conversion. -/

structure Date where
  year : Int
  month : Int
  day : Int
  deriving DecidableEq, Repr

/-- Days since 1970-01-01 (proleptic Gregorian calendar). -/
def Date.toDays (dt : Date) : Int :=
  let y := if dt.month ≤ 2 then dt.year - 1 else dt.year
  let era := Int.fdiv y 400
  let yoe := y - era * 400
  let mp := if dt.month > 2 then dt.month - 3 else dt.month + 9
  let doy := (153 * mp + 2) / 5 + dt.day - 1
  let doe := yoe * 365 + yoe / 4 - yoe / 100 + doy
  era * 146097 + doe - 719468

/-- Inverse of `Date.toDays`. -/
def Date.fromDays (z0 : Int) : Date :=
  let z := z0 + 719468
  let era := Int.fdiv z 146097
  let doe := z - era * 146097
  let yoe := (doe - doe / 1460 + doe / 36524 - doe / 146096) / 365
  let y := yoe + era * 400
  let doy := doe - (365 * yoe + yoe / 4 - yoe / 100)
  let mp := (5 * doy + 2) / 153
  let d := doy - (153 * mp + 2) / 5 + 1
  let m := if mp < 10 then mp + 3 else mp - 9
  ⟨if m ≤ 2 then y + 1 else y, m, d⟩

/-- `dt + timedelta(days=n)`. -/
def Date.addDays (dt : Date) (n : Int) : Date :=
  Date.fromDays (dt.toDays + n)

/-- Chronological `<` on dates (Python `datetime` comparison). -/
def Date.ltB (a b : Date) : Bool :=
  a.toDays < b.toDays

/-- Chronological `≤` on dates. -/
def Date.leB (a b : Date) : Bool :=
  a.toDays ≤ b.toDays

def isLeapYear (y : Int) : Bool :=
  y % 4 = 0 && (y % 100 ≠ 0 || y % 400 = 0)

def daysInMonth (y m : Int) : Int :=
  if m = 2 then (if isLeapYear y then 29 else 28)
  else if m = 4 || m = 6 || m = 9 || m = 11 then 30
  else 31

def monthAbbrNames : List String :=
  ["Jan", "Feb", "Mar", "Apr", "May", "Jun",
   "Jul", "Aug", "Sep", "Oct", "Nov", "Dec"]

def monthFullNames : List String :=
  ["January", "February", "March", "April", "May", "June",
   "July", "August", "September", "October", "November", "December"]

def monthAbbr (m : Int) : String :=
  monthAbbrNames.getD (m - 1).toNat "?"

def monthFull (m : Int) : String :=
  monthFullNames.getD (m - 1).toNat "?"

/-! ### Python `strftime`

Only the directives the engine's format strings use are given meaning
(`%d`, `%m`, `%b`, `%B`, `%Y`, `%%`); any other character — including the
letters of a Java-style pattern such as `yyyy-MM-dd` — is passed through
to the output unchanged, which is exactly what CPython's `strftime`
does with non-directive characters. -/

def pad2 (n : Int) : List Char :=
  (if 0 ≤ n ∧ n < 10 then "0" ++ toString n else toString n).data

def strftimeDirective (dt : Date) (c : Char) : List Char :=
  if c = 'd' then pad2 dt.day
  else if c = 'm' then pad2 dt.month
  else if c = 'b' then (monthAbbr dt.month).data
  else if c = 'B' then (monthFull dt.month).data
  else if c = 'Y' then (toString dt.year).data
  else if c = '%' then ['%']
  else ['%', c]

def strftimeChars (dt : Date) : List Char → List Char
  | [] => []
  | ['%'] => ['%']
  | '%' :: c :: rest => strftimeDirective dt c ++ strftimeChars dt rest
  | c :: rest => c :: strftimeChars dt rest

/-- `WorkflowEngine._format_date` : `dt.strftime(fmt)` (default `'%d %b %Y'`). -/
def formatDate (dt : Date) (fmt : String) : String :=
  ⟨strftimeChars dt fmt.data⟩

/-! ### Python `strptime` for the four formats of `_parse_date`

`_parse_date` tries, in order: `'%d %b %Y'`, `'%d %B %Y'`,
`'%Y-%m-%d'`, `'%d/%m/%Y'` on the stripped input, returning the first
success or `None`.  CPython's `strptime` matches `%d` against 1–2
digits valuing 1–31, `%m` against 1–2 digits valuing 1–12, `%Y` against
exactly four digits, month names case-insensitively, whitespace in the
format against one-or-more whitespace characters, requires the whole
string to be consumed, and finally validates the date (raising for e.g.
`31 Feb`). -/

def lowerEq (a b : Char) : Bool :=
  a.toLower = b.toLower

/-- Case-insensitive prefix match; returns the rest on success. -/
def matchNameCI : List Char → List Char → Option (List Char)
  | [], rest => some rest
  | _ :: _, [] => none
  | p :: ps, c :: cs => if lowerEq p c then matchNameCI ps cs else none

/-- Try a list of (name, value) alternatives, first match wins. -/
def matchAlternatives (alts : List (String × Int)) (l : List Char) :
    Option (Int × List Char) :=
  match alts with
  | [] => none
  | (name, v) :: rest =>
    match matchNameCI name.data l with
    | some r => some (v, r)
    | none => matchAlternatives rest l

def digitVal (c : Char) : Int :=
  Int.ofNat (c.toNat - '0'.toNat)

/-- `%d`: `(3[01]|[12]\d|0[1-9]|[1-9])`. -/
def parsePercentD : List Char → Option (Int × List Char)
  | c1 :: c2 :: rest =>
    if c1.isDigit ∧ c2.isDigit then
      let v := digitVal c1 * 10 + digitVal c2
      if digitVal c1 = 0 then
        if 1 ≤ digitVal c2 then some (digitVal c2, rest) else none
      else if v ≤ 31 then some (v, rest)
      else if 1 ≤ digitVal c1 then some (digitVal c1, c2 :: rest)
      else none
    else if c1.isDigit ∧ 1 ≤ digitVal c1 then some (digitVal c1, c2 :: rest)
    else none
  | [c1] => if c1.isDigit ∧ 1 ≤ digitVal c1 then some (digitVal c1, []) else none
  | [] => none

/-- `%m`: `(1[0-2]|0[1-9]|[1-9])`. -/
def parsePercentM : List Char → Option (Int × List Char)
  | c1 :: c2 :: rest =>
    if c1.isDigit ∧ c2.isDigit then
      let v := digitVal c1 * 10 + digitVal c2
      if digitVal c1 = 0 then
        if 1 ≤ digitVal c2 then some (digitVal c2, rest) else none
      else if v ≤ 12 then some (v, rest)
      else if 1 ≤ digitVal c1 then some (digitVal c1, c2 :: rest)
      else none
    else if c1.isDigit ∧ 1 ≤ digitVal c1 then some (digitVal c1, c2 :: rest)
    else none
  | [c1] => if c1.isDigit ∧ 1 ≤ digitVal c1 then some (digitVal c1, []) else none
  | [] => none

/-- `%Y`: exactly four digits. -/
def parsePercentY : List Char → Option (Int × List Char)
  | c1 :: c2 :: c3 :: c4 :: rest =>
    if c1.isDigit ∧ c2.isDigit ∧ c3.isDigit ∧ c4.isDigit then
      some (digitVal c1 * 1000 + digitVal c2 * 100 + digitVal c3 * 10 +
        digitVal c4, rest)
    else none
  | _ => none

/-- `%b` / `%B` month-name alternatives.  CPython orders the regex
alternation longest-name-first; since no English month name is a prefix
of another, first-match semantics over calendar order is identical, so
the sort is omitted. -/
def monthNameAlts (full : Bool) : List (String × Int) :=
  (if full then monthFullNames else monthAbbrNames).enum.map
    (fun p => (p.2, Int.ofNat p.1 + 1))

/-- Whitespace in a `strptime` format: one-or-more whitespace chars. -/
def parseWs : List Char → Option (List Char)
  | c :: rest =>
    if c.isWhitespace then some (rest.dropWhile Char.isWhitespace) else none
  | [] => none

def expectChar (c : Char) : List Char → Option (List Char)
  | x :: rest => if x = c then some rest else none
  | [] => none

/-- Assemble a parsed (day, month, year) triple, validating as
`datetime(year, month, day)` would. -/
def mkValidDate (y m d : Int) : Option Date :=
  if 1 ≤ y ∧ y ≤ 9999 ∧ 1 ≤ m ∧ m ≤ 12 ∧ 1 ≤ d ∧ d ≤ daysInMonth y m then
    some ⟨y, m, d⟩
  else none

/-- `'%d %b %Y'` or `'%d %B %Y'`. -/
def parseDMY (full : Bool) (l : List Char) : Option Date := do
  let (d, r1) ← parsePercentD l
  let r2 ← parseWs r1
  let (m, r3) ← matchAlternatives (monthNameAlts full) r2
  let r4 ← parseWs r3
  let (y, r5) ← parsePercentY r4
  if r5.isEmpty then mkValidDate y m d else none

/-- `'%Y-%m-%d'`. -/
def parseYMD (l : List Char) : Option Date := do
  let (y, r1) ← parsePercentY l
  let r2 ← expectChar '-' r1
  let (m, r3) ← parsePercentM r2
  let r4 ← expectChar '-' r3
  let (d, r5) ← parsePercentD r4
  if r5.isEmpty then mkValidDate y m d else none

/-- `'%d/%m/%Y'`. -/
def parseDSlashMY (l : List Char) : Option Date := do
  let (d, r1) ← parsePercentD l
  let r2 ← expectChar '/' r1
  let (m, r3) ← parsePercentM r2
  let r4 ← expectChar '/' r3
  let (y, r5) ← parsePercentY r4
  if r5.isEmpty then mkValidDate y m d else none

/-- Python `str.strip()`. -/
def stripChars (l : List Char) : List Char :=
  ((l.dropWhile Char.isWhitespace).reverse.dropWhile Char.isWhitespace).reverse

/-- `WorkflowEngine._parse_date`: strip, then try the four formats in
order. -/
def parseDate (s : String) : Option Date :=
  let l := stripChars s.data
  match parseDMY false l with
  | some d => some d
  | none =>
    match parseDMY true l with
    | some d => some d
    | none =>
      match parseYMD l with
      | some d => some d
      | none => parseDSlashMY l

/-! ### Variable resolver (`WorkflowEngine._resolve_variable`)

Three `re.sub` passes run in order over the string:
1. `\$\{TODAY(?::([^}]+))?\}`
2. `\$\{DATE_ADD:(\w+):(-?\d+)(?::([^}]+))?\}`
3. `\$\{(\w+)\}`
Each pass scans left-to-right, replacing non-overlapping matches.  The
scanners below implement exactly these three patterns. -/

/-- Python `\w` on the ASCII inputs the engine sees. -/
def isWordChar (c : Char) : Bool :=
  c.isAlphanum || c = '_'

/-- Association-list lookup, mirroring `dict.get` with a default. -/
def lookupD (l : List (String × String)) (k : String) (dflt : String) : String :=
  match l.find? (fun p => p.1 = k) with
  | some p => p.2
  | none => dflt

def lookupOpt (l : List (String × String)) (k : String) : Option String :=
  (l.find? (fun p => p.1 = k)).map (·.2)

/-- Generic single-pass `re.sub` scanner: at each position try the
matcher (which returns the replacement and the remainder after the
match); on failure move one character right.  The fuel starts at the
string length; every successful match consumes at least two characters,
so the fuel never runs out on the initial call. -/
def substAux (m : List Char → Option (List Char × List Char)) :
    Nat → List Char → List Char
  | 0, l => l
  | _ + 1, [] => []
  | n + 1, c :: cs =>
    match m (c :: cs) with
    | some (repl, rest) => repl ++ substAux m n rest
    | none => c :: substAux m n cs

def subst (m : List Char → Option (List Char × List Char))
    (l : List Char) : List Char :=
  substAux m l.length l

/-- The default format `'%d %b %Y'`. -/
def defaultDateFmt : List Char := "%d %b %Y".data

/-- Matcher core for `TODAY(?::([^}]+))?\}` (after `${` was consumed):
returns the format (group 1 or the default). -/
def todayCore : List Char → Option (List Char × List Char)
  | 'T' :: 'O' :: 'D' :: 'A' :: 'Y' :: rest =>
    match rest with
    | '}' :: r => some (defaultDateFmt, r)
    | ':' :: r =>
      let fmt := r.takeWhile (· ≠ '}')
      if fmt.isEmpty then none
      else
        match r.dropWhile (· ≠ '}') with
        | '}' :: r2 => some (fmt, r2)
        | _ => none
    | _ => none
  | _ => none

def matchToday : List Char → Option (List Char × List Char)
  | a :: b :: rest =>
    if a = '$' ∧ b = '{' then todayCore rest else Option.none
  | _ => Option.none

/-- Digits to a natural value. -/
def digitsVal (l : List Char) : Int :=
  l.foldl (fun acc c => acc * 10 + digitVal c) 0

/-- Matcher core for `DATE_ADD:(\w+):(-?\d+)(?::([^}]+))?\}` (after `${`):
returns (varName, days, fmt). -/
def dateAddCore : List Char → Option ((String × Int × List Char) × List Char)
  | 'D' :: 'A' :: 'T' :: 'E' :: '_' :: 'A' :: 'D' :: 'D' :: ':' :: rest =>
    let nameCs := rest.takeWhile isWordChar
    if nameCs.isEmpty then none
    else
      match rest.dropWhile isWordChar with
      | ':' :: r1 =>
        let (neg, r2) := match r1 with
          | '-' :: r2 => (true, r2)
          | _ => (false, r1)
        let digits := r2.takeWhile Char.isDigit
        if digits.isEmpty then none
        else
          let days := (if neg then -1 else 1) * digitsVal digits
          match r2.dropWhile Char.isDigit with
          | '}' :: r3 => some ((⟨nameCs⟩, days, defaultDateFmt), r3)
          | ':' :: r3 =>
            let fmt := r3.takeWhile (· ≠ '}')
            if fmt.isEmpty then none
            else
              match r3.dropWhile (· ≠ '}') with
              | '}' :: r4 => some ((⟨nameCs⟩, days, fmt), r4)
              | _ => none
          | _ => none
      | _ => none
  | _ => none

/-- Matcher core for `(\w+)\}` (after `${`): returns the name. -/
def varCore (rest : List Char) : Option (String × List Char) :=
  let nameCs := rest.takeWhile isWordChar
  if nameCs.isEmpty then none
  else
    match rest.dropWhile isWordChar with
    | '}' :: r => some (⟨nameCs⟩, r)
    | _ => none

/-- Pass 1 matcher, with the replacement computed from `today`. -/
def matchTodayRepl (today : Date) :
    List Char → Option (List Char × List Char) := fun l =>
  match matchToday l with
  | some (fmt, rest) => some (strftimeChars today fmt, rest)
  | none => none

/-- Replacement of one `DATE_ADD` match (`replace_date_add` in the
source): look the variable up (default `''`), return `''` if it is
empty or unparsable, else parse, add the days and format. -/
def dateAddRepl (vars : List (String × String)) (varName : String)
    (days : Int) (fmt : List Char) : List Char :=
  let dateStr := lookupD vars varName ""
  if dateStr = "" then []
  else
    match parseDate dateStr with
    | some dt => strftimeChars (dt.addDays days) fmt
    | none => []

/-- Pass 2 matcher with replacement. -/
def matchDateAddRepl (vars : List (String × String)) :
    List Char → Option (List Char × List Char)
  | a :: b :: rest =>
    if a = '$' ∧ b = '{' then
      match dateAddCore rest with
      | some ((name, days, fmt), r) =>
        some (dateAddRepl vars name days fmt, r)
      | Option.none => Option.none
    else Option.none
  | _ => Option.none

/-- Pass 3 matcher: `env_vars.get(name, variables.get(name, ''))`. -/
def matchVarRepl (env vars : List (String × String)) :
    List Char → Option (List Char × List Char)
  | a :: b :: rest =>
    if a = '$' ∧ b = '{' then
      match varCore rest with
      | some (name, r) =>
        some ((match lookupOpt env name with
               | some v => v
               | Option.none => lookupD vars name "").data, r)
      | Option.none => Option.none
    else Option.none
  | _ => Option.none

/-- Whether the character pair `${` occurs anywhere in the string — the
necessary lead-in of all three placeholder patterns.  "Contains no
`${...}` placeholder" is formalised as `hasDB = false`. -/
def hasDB : List Char → Bool
  | a :: b :: rest => (a = '$' && b = '{') || hasDB (b :: rest)
  | _ => false

/-- `WorkflowEngine._resolve_variable` on a string value. -/
def resolveStr (env vars : List (String × String)) (today : Date)
    (s : String) : String :=
  ⟨subst (matchVarRepl env vars)
    (subst (matchDateAddRepl vars)
      (subst (matchTodayRepl today) s.data))⟩

/-- A Python value, as far as the engine's step parameters go. -/
inductive PyVal where
  | str : String → PyVal
  | int : Int → PyVal
  | bool : Bool → PyVal
  | none : PyVal
  | list : List PyVal → PyVal
  deriving Repr

/-- `WorkflowEngine._resolve_variable`: non-`str` inputs are returned
unchanged (`if not isinstance(value, str): return value`). -/
def resolveValue (env vars : List (String × String)) (today : Date) :
    PyVal → PyVal
  | .str s => .str (resolveStr env vars today s)
  | v => v

/-! ### Execution engine (`WorkflowEngine._execute_step` / `run`)

A step carries the fields the dispatcher itself consults; everything a
handler does (browser I/O) is abstracted into a handler oracle mapping
each step to its behaviour: a normal return (optional jump-target
string), a raised `StepFailedError`, or any other raised exception. -/

structure Step where
  id : String
  action : String
  onError : Option String := Option.none
  deriving Repr, DecidableEq

/-- The keys of the `handlers` dict in `_execute_step`. -/
def knownActions : List String :=
  ["goto", "fill", "press_key", "click", "ensure_checked",
   "batch_ensure_checked", "deselect_all_columns", "select_columns",
   "check_url", "wait_for_url", "wait_for_selector", "wait_for_download",
   "capture_state", "scrape", "manual_intervention", "read_input",
   "read_text", "loop_elements", "loop_vat_returns", "click_and_download",
   "execute_script", "validate_filters"]

/-- What a handler invocation does. -/
inductive HandlerOutcome where
  /-- Returns normally with an optional jump-target id. -/
  | ret : Option String → HandlerOutcome
  /-- Raises `StepFailedError msg`. -/
  | failStep : String → HandlerOutcome
  /-- Raises some other exception with message `msg`. -/
  | exn : String → HandlerOutcome
  deriving Repr, DecidableEq

/-- An entry of `state.errors`.  The two sites that append entries build
different dicts: `_execute_step`'s generic catch appends
`{'step': id, 'error': msg}` (no `fatal` key, modelled as `none`) and
`run`'s outer catch appends `{'step': current_step, 'error': msg,
'fatal': True}`. -/
structure ErrorEntry where
  step : Option String
  error : String
  fatal : Option Bool
  deriving Repr, DecidableEq

/-- The engine-visible fields of `WorkflowState`. -/
structure WfState where
  currentStep : Option String := Option.none
  completedSteps : List String := []
  errors : List ErrorEntry := []
  deriving Repr, DecidableEq

/-- Result of `_execute_step`: a normal return value, or a propagating
`StepFailedError`. -/
inductive StepResult where
  | ok : Option String → StepResult
  | raisedFail : String → StepResult
  deriving Repr, DecidableEq

structure ExecOut where
  state : WfState
  result : StepResult
  /-- Ids passed to a handler by this call (empty for unknown actions). -/
  dispatched : List String
  deriving Repr, DecidableEq

/-- `WorkflowEngine._execute_step`: set `current_step`; unknown action →
log and return `None` (no dispatch, nothing recorded); handler returns →
append the id to `completed_steps` and return the value; handler raises
`StepFailedError` → re-raise; any other exception → append a
`{'step', 'error'}` entry to `state.errors` and return
`step.get('on_error')`. -/
def executeStep (h : Step → HandlerOutcome) (st : WfState) (step : Step) :
    ExecOut :=
  let st := { st with currentStep := some step.id }
  if knownActions.contains step.action then
    match h step with
    | .ret t =>
      ⟨{ st with completedSteps := st.completedSteps ++ [step.id] },
        .ok t, [step.id]⟩
    | .failStep m => ⟨st, .raisedFail m, [step.id]⟩
    | .exn m =>
      ⟨{ st with errors := st.errors ++ [⟨some step.id, m, Option.none⟩] },
        .ok step.onError, [step.id]⟩
  else ⟨st, .ok Option.none, []⟩

/-- `WorkflowEngine._get_step_index`: linear scan by id, `-1` if absent. -/
def getStepIndex (steps : List Step) (stepId : String) : Int :=
  (go steps 0)
where
  go : List Step → Int → Int
    | [], _ => -1
    | s :: rest, i => if s.id = stepId then i else go rest (i + 1)

/-- Final status of `run`. -/
inductive RunStatus where
  | completed
  | failed
  /-- The fuel ran out (the Python loop can run forever on a jump
  cycle); never reached when the fuel exceeds the number of iterations. -/
  | fuelOut
  deriving Repr, DecidableEq

structure RunOut where
  state : WfState
  status : RunStatus
  /-- All ids dispatched to handlers, in order. -/
  dispatched : List String
  deriving Repr, DecidableEq

/-- The `while current_index < len(steps)` loop of `WorkflowEngine.run`,
including its `except StepFailedError` clause, which appends the fatal
error entry and marks the workflow failed. -/
def runFrom (h : Step → HandlerOutcome) (steps : List Step) :
    Nat → Nat → WfState → List String → RunOut
  | 0, _, st, tr => ⟨st, .fuelOut, tr⟩
  | fuel + 1, i, st, tr =>
    match steps[i]? with
    | Option.none => ⟨st, .completed, tr⟩
    | some step =>
      let out := executeStep h st step
      let tr := tr ++ out.dispatched
      match out.result with
      | .raisedFail m =>
        ⟨{ out.state with
            errors := out.state.errors ++
              [⟨out.state.currentStep, m, some true⟩] }, .failed, tr⟩
      | .ok t =>
        let next :=
          match t with
          | some tid =>
            if tid ≠ "" then
              let idx := getStepIndex steps tid
              if 0 ≤ idx then idx.toNat else i + 1
            else i + 1
          | Option.none => i + 1
        runFrom h steps fuel next out.state tr

/-- `WorkflowEngine.run` from a fresh state (browser setup and
reporting elided), with enough fuel to cover `fuel` loop iterations. -/
def runWorkflow (h : Step → HandlerOutcome) (steps : List Step)
    (fuel : Nat) : RunOut :=
  runFrom h steps fuel 0 {} []

/-! ### Variable store values

Loop sub-engines write variables of mixed type (`str` period labels,
`int` counts) through `_store_variable`, which assigns into the
`state.variables` dict. -/

/-- Python dict assignment `vars[k] = v` (update in place, new keys
appended in insertion order). -/
def storePy (vars : List (String × PyVal)) (k : String) (v : PyVal) :
    List (String × PyVal) :=
  if vars.any (fun p => p.1 = k) then
    vars.map (fun p => if p.1 = k then (k, v) else p)
  else vars ++ [(k, v)]

/-- `vars.get(k)` on the mixed-type store. -/
def lookupPy (vars : List (String × PyVal)) (k : String) : Option PyVal :=
  (vars.find? (fun p => p.1 = k)).map (·.2)

/-! ### VAT-returns loop sub-engine (`_execute_loop_vat_returns`)

The page is abstracted by the discovered item list (the in-page script
already deduplicates by button id) and by per-item oracles: whether the
Review-button click succeeds, whether the preparation prompt appears,
and whether all sub-steps run without `StepFailedError`. -/

structure VatItem where
  dateRange : String
  startDate : String
  endDate : String
  buttonId : String
  deriving Repr, DecidableEq

/-- The filter decision of the vat loop: an item goes to `skipped`
exactly when a filter date exists, its start date parses, and the
parsed date is `<` the filter date (`if filter_date and row_date: if
row_date < filter_date: skipped`). -/
def vatFilterPass (filterDate : Option Date) (it : VatItem) : Bool :=
  match filterDate with
  | Option.none => true
  | some fd =>
    match parseDate it.startDate with
    | Option.none => true
    | some d => !(d.ltB fd)

/-- Partition of the (already ordered) item list into `to_process` and
the `skipped` date ranges. -/
def vatPartition (filterDate : Option Date) (items : List VatItem) :
    List VatItem × List String :=
  (items.filter (vatFilterPass filterDate),
   (items.filter (fun it => !(vatFilterPass filterDate it))).map
     (·.dateRange))

structure VatLoopOut where
  vars : List (String × PyVal)
  processed : Nat
  /-- The items whose export completed, in processing order. -/
  processedItems : List VatItem
  toProcess : List VatItem
  skipped : List String
  deriving Repr

/-- The `for i, vat_return in enumerate(to_process)` body: dedup by
button id, store the per-item context variables, click (id recorded
only on click success), skip on the preparation prompt, run sub-steps
(failure → recovery navigation, not counted), else count the item. -/
def vatProcessGo (clickOk prep subOk : VatItem → Bool) (total : Nat) :
    List VatItem → Nat → List String → Nat → List VatItem →
    List (String × PyVal) → Nat × List VatItem × List (String × PyVal)
  | [], _, _, count, plist, vars => (count, plist, vars)
  | it :: rest, i, ids, count, plist, vars =>
    if ids.contains it.buttonId then
      vatProcessGo clickOk prep subOk total rest (i + 1) ids count plist vars
    else
      let vars := storePy vars "vat_return_period" (.str it.dateRange)
      let vars := storePy vars "vat_return_start_date" (.str it.startDate)
      let vars := storePy vars "vat_return_end_date" (.str it.endDate)
      let vars := storePy vars "vat_return_progress"
        (.str s!"{i + 1} of {total}")
      if !(clickOk it) then
        vatProcessGo clickOk prep subOk total rest (i + 1) ids count plist vars
      else
        let ids := ids ++ [it.buttonId]
        if prep it then
          vatProcessGo clickOk prep subOk total rest (i + 1) ids count plist
            vars
        else if !(subOk it) then
          vatProcessGo clickOk prep subOk total rest (i + 1) ids count plist
            vars
        else
          vatProcessGo clickOk prep subOk total rest (i + 1) ids (count + 1)
            (plist ++ [it]) vars

/-- `_execute_loop_vat_returns`.  `pageIssue` is the structural-skip
diagnostic (`vat_page_issues`); `resolve` stands for
`self._resolve_variable`; `reverseOrder` is `step.get('reverse_order',
True)`. -/
def vatLoop (items : List VatItem) (filterDateFrom : Option String)
    (reverseOrder : Bool) (resolve : String → String)
    (pageIssue : Option String) (clickOk prep subOk : VatItem → Bool)
    (vars0 : List (String × PyVal)) : VatLoopOut :=
  match pageIssue with
  | some _ =>
    ⟨storePy vars0 "loop_processed_count" (.int 0), 0, [], [], []⟩
  | Option.none =>
    let filterDate :=
      match filterDateFrom with
      | some f => parseDate (resolve f)
      | Option.none => Option.none
    let items := if reverseOrder then items.reverse else items
    let (toProcess, skipped) := vatPartition filterDate items
    let (count, plist, vars) :=
      vatProcessGo clickOk prep subOk toProcess.length toProcess 0 [] 0 []
        vars0
    ⟨storePy vars "loop_processed_count" (.int count), count, plist,
      toProcess, skipped⟩

/-! ### Generic elements loop sub-engine (`_execute_loop_elements`) -/

/-- Python `str.split(sep)` for a non-empty separator: split on every
non-overlapping occurrence, scanning left to right. -/
def splitGo (sep : List Char) : Nat → List Char → List Char →
    List (List Char)
  | _, cur, [] => [cur.reverse]
  | 0, cur, l => [cur.reverse ++ l]
  | n + 1, cur, c :: cs =>
    if sep.isPrefixOf (c :: cs) then
      cur.reverse :: splitGo sep n [] ((c :: cs).drop sep.length)
    else
      splitGo sep n (c :: cur) cs

def pySplit (s sep : String) : List String :=
  (splitGo sep.data s.data.length [] s.data).map (fun l => ⟨l⟩)

/-- `_extract_date_from_range`: strip; if `' - '` occurs, parse the
first (`mode == 'start'`) or second part, else parse the whole text. -/
def extractDateFromRange (text : String) (mode : String) : Option Date :=
  let t : String := ⟨stripChars text.data⟩
  match pySplit t " - " with
  | p0 :: p1 :: _ =>
    parseDate (if mode = "start" then ⟨stripChars p0.data⟩
      else ⟨stripChars p1.data⟩)
  | _ => parseDate t

/-- Outcome of the per-item action-button interaction: the button was
clicked, was not visible (code falls through to the sub-steps), or the
attempt raised (code logs a warning and skips the item). -/
inductive ActionOut where
  | clicked
  | notVisible
  | errored
  deriving Repr, DecidableEq

/-- The elements-loop filter decision for item `i`: skipped exactly when
a filter date and a date-field selector are configured, the item's date
text is non-empty, it extracts to a date, and that date is `<` the
filter date.  Failures anywhere in the lookup fall through to
processing (`except Exception: pass`). -/
def elemFilterPass (filterDate : Option Date) (dateFieldPresent : Bool)
    (mode : String) (dateText : Option String) : Bool :=
  match filterDate with
  | Option.none => true
  | some fd =>
    if dateFieldPresent then
      match dateText with
      | some txt =>
        if txt ≠ "" then
          match extractDateFromRange txt mode with
          | some d => !(d.ltB fd)
          | Option.none => true
        else true
      | Option.none => true
    else true

structure ElemLoopOut where
  vars : List (String × PyVal)
  processed : Nat
  skipped : Nat
  /-- Indices (into discovery order) that reached the sub-step phase,
  in processing order. -/
  order : List Nat
  deriving Repr

/-- The `for i in indices` body of `_execute_loop_elements`.  Note that
`processed += 1` runs even when a sub-step raised `StepFailedError`
(the failure only `break`s the inner sub-step loop). -/
def elemGo (filterDate : Option Date) (dateFieldPresent : Bool)
    (mode : String) (dateText : Nat → Option String)
    (actionPresent : Bool) (action : Nat → ActionOut)
    (subOk : Nat → Bool) :
    List Nat → Nat → Nat → List Nat → Nat × Nat × List Nat
  | [], processed, skipped, order => (processed, skipped, order)
  | i :: rest, processed, skipped, order =>
    if !(elemFilterPass filterDate dateFieldPresent mode (dateText i)) then
      elemGo filterDate dateFieldPresent mode dateText actionPresent action
        subOk rest processed (skipped + 1) order
    else if actionPresent ∧ action i = .errored then
      elemGo filterDate dateFieldPresent mode dateText actionPresent action
        subOk rest processed skipped order
    else
      -- sub-steps run here; `subOk i` records whether they all
      -- succeeded, but the count is incremented either way
      elemGo filterDate dateFieldPresent mode dateText actionPresent action
        subOk rest (processed + 1) skipped (order ++ [i])

/-- `_execute_loop_elements`: `count` items are discovered;
`reverseOrder` is `step.get('reverse_order', True)`. -/
def elementsLoop (count : Nat) (filterDateFrom : Option String)
    (resolve : String → String) (dateFieldPresent : Bool) (mode : String)
    (dateText : Nat → Option String) (actionPresent : Bool)
    (action : Nat → ActionOut) (subOk : Nat → Bool) (reverseOrder : Bool)
    (vars0 : List (String × PyVal)) : ElemLoopOut :=
  let filterDate :=
    match filterDateFrom with
    | some f => parseDate (resolve f)
    | Option.none => Option.none
  let indices := List.range count
  let indices := if reverseOrder then indices.reverse else indices
  let (processed, skipped, order) :=
    elemGo filterDate dateFieldPresent mode dateText actionPresent action
      subOk indices 0 0 []
  ⟨storePy vars0 "loop_processed_count" (.int processed), processed,
    skipped, order⟩

/-! ### Column selection (`_execute_select_columns`)

The page is abstracted by the snapshot of currently-checked column
selectors (as built by the in-page script) and by click-success
oracles; a successful click on a checked checkbox unchecks it. -/

structure ColSpec where
  selector : Option String := Option.none
  name : Option String := Option.none
  deriving Repr, DecidableEq

/-- `[col.get('selector') for col in columns if col.get('selector')]`
(truthiness: both a missing and an empty selector are dropped). -/
def requiredSelectors (cols : List ColSpec) : List String :=
  cols.filterMap (fun c =>
    match c.selector with
    | some s => if s ≠ "" then some s else Option.none
    | Option.none => Option.none)

structure SelectColsOut where
  /-- Selectors on which a toggle (click) was attempted, in order. -/
  attempts : List String
  successCount : Nat
  failedCount : Nat
  /-- Whether the handler raises `StepFailedError` at the end. -/
  raises : Bool
  deriving Repr, DecidableEq

/-- Phase 2 of `_execute_select_columns`: walk the declared columns;
falsy selector → failed; already checked → success without a click;
otherwise click (success/failure per the oracle). -/
def selectPhase (checkedNow : List String) (selectOk : String → Bool) :
    List ColSpec → List String × Nat × Nat
  | [] => ([], 0, 0)
  | c :: rest =>
    let (att, succ, fail) := selectPhase checkedNow selectOk rest
    match c.selector with
    | Option.none => (att, succ, fail + 1)
    | some s =>
      if s = "" then (att, succ, fail + 1)
      else if checkedNow.contains s then (att, succ + 1, fail)
      else if selectOk s then (s :: att, succ + 1, fail)
      else (s :: att, succ, fail + 1)

/-- `_execute_select_columns`: deselect every checked column not in the
required list, then select every required column not currently checked;
raise `StepFailedError` iff some column failed and the step is not
optional. -/
def selectColumns (cols : List ColSpec) (checked : List String)
    (deselectOk selectOk : String → Bool) (optional : Bool) :
    SelectColsOut :=
  let required := requiredSelectors cols
  let toDeselect := checked.filter (fun c => !(required.contains c))
  let checkedNow := checked.filter
    (fun c => !(!(required.contains c) && deselectOk c))
  let res := selectPhase checkedNow selectOk cols
  ⟨toDeselect ++ res.1, res.2.1, res.2.2, res.2.2 > 0 && !optional⟩

/-! ### Download filenames (`_format_download_filename`) -/

/-- `_get_report_prefix`: `(number_prefix, full_name, is_vat)`. -/
def getReportPrefixInfo (workflowName : String) : String × String × Bool :=
  if workflowName = "trial_balance_report" then ("1", "Trial Balance", false)
  else if workflowName = "profit_and_loss" then ("2", "Profit and Loss", false)
  else if workflowName = "aged_receivables_detail" then
    ("3", "Aged Receivables Detail", false)
  else if workflowName = "aged_payables_detail" then
    ("4", "Aged Payables Detail", false)
  else if workflowName = "account_transactions" then
    ("5", "Account Transactions", false)
  else if workflowName = "receivable_invoice_detail" then
    ("6", "Receivable Invoice Detail", false)
  else if workflowName = "payable_invoice_detail" then
    ("7", "Payable Invoice Detail", false)
  else if workflowName = "vat_returns" then ("1", "VAT", true)
  else if workflowName = "vat_returns_export" then ("1", "VAT", true)
  else if workflowName = "get_financial_year_end" then
    ("", "Financial Year End", false)
  else ("", workflowName, false)

/-- `_format_date_compact`: `''` for empty input; parsed dates rendered
as `%d%m%Y`; otherwise spaces and dashes removed. -/
def formatDateCompact (s : String) : String :=
  if s = "" then ""
  else
    match parseDate s with
    | some d => formatDate d "%d%m%Y"
    | Option.none => (s.replace " " "").replace "-" ""

/-- The characters removed by `re.sub(r'[<>:"/\\|?*]', '', company_name)`. -/
def filenameBadChars : List Char :=
  ['<', '>', ':', '"', '/', '\\', '|', '?', '*']

/-- The sanitised company name (`'Unknown'` when the name is falsy). -/
def safeCompany (companyName : String) : String :=
  if companyName ≠ "" then
    ⟨companyName.data.filter (fun c => !(filenameBadChars.contains c))⟩
  else "Unknown"

/-- `_format_download_filename`: returns
`(new_filename, client_folder, subfolder)`.  The VAT period boundaries
are read from `state.variables` with default `''`. -/
def formatDownloadFilename (vars : List (String × String))
    (workflowName companyName fileExt : String) :
    String × String × String :=
  let (numPref, reportName, isVat) := getReportPrefixInfo workflowName
  let safe := safeCompany companyName
  let clientFolder := safe
  if isVat then
    let periodStart := lookupD vars "vat_return_start_date" ""
    let periodEnd := lookupD vars "vat_return_end_date" ""
    if periodStart ≠ "" ∧ periodEnd ≠ "" then
      let periodStr :=
        formatDateCompact periodStart ++ "-" ++ formatDateCompact periodEnd
      (numPref ++ " VAT_" ++ periodStr ++ "_" ++ safe ++ fileExt,
        clientFolder, "")
    else (numPref ++ " VAT_" ++ safe ++ fileExt, clientFolder, "")
  else
    if numPref ≠ "" then
      (numPref ++ " " ++ reportName ++ "_" ++ safe ++ fileExt,
        clientFolder, "")
    else (reportName ++ "_" ++ safe ++ fileExt, clientFolder, "")

/-! ### Concrete scenarios used by witnesses and counterexamples -/

/-- The `[A(on_error=C), B, C]` scenario of the spec's error-branch
property: `A` raises a generic (non-`StepFailure`) exception. -/
def cexSteps : List Step :=
  [⟨"A", "click", some "C"⟩, ⟨"B", "click", Option.none⟩,
   ⟨"C", "click", Option.none⟩]

def cexHandler : Step → HandlerOutcome := fun s =>
  if s.id = "A" then .exn "oops" else .ret Option.none

/-- Three discovered VAT returns dated 31 Mar / 01 Apr / 15 Apr 2024,
in discovery order. -/
def vatItems3 : List VatItem :=
  [⟨"31 Mar 2024 - 30 Apr 2024", "31 Mar 2024", "30 Apr 2024", "b1"⟩,
   ⟨"01 Apr 2024 - 30 Jun 2024", "01 Apr 2024", "30 Jun 2024", "b2"⟩,
   ⟨"15 Apr 2024 - 30 Jun 2024", "15 Apr 2024", "30 Jun 2024", "b3"⟩]

/-- Item dates for a three-element generic loop, same dates as
`vatItems3`. -/
def elemDates3 : Nat → Option String := fun i =>
  if i = 0 then some "31 Mar 2024"
  else if i = 1 then some "01 Apr 2024"
  else some "15 Apr 2024"

/-! ## Theorems -/

theorem hasDB_tail {c : Char} {cs : List Char} (h : hasDB (c :: cs) = false) :
    hasDB cs = false := by
  cases cs with
  | nil => rfl
  | cons b t =>
    simp only [hasDB, Bool.or_eq_false_iff] at h
    exact h.2

theorem matchToday_none {l : List Char} (h : hasDB l = false) :
    matchToday l = Option.none := by
  match l with
  | [] => rfl
  | [_] => rfl
  | a :: b :: t =>
    simp only [hasDB, Bool.or_eq_false_iff, Bool.and_eq_false_iff] at h
    have : ¬(a = '$' ∧ b = '{') := by
      rcases h.1 with h1 | h1 <;> simp_all
    simp [matchToday, this]

theorem matchTodayRepl_none (today : Date) {l : List Char}
    (h : hasDB l = false) : matchTodayRepl today l = Option.none := by
  simp [matchTodayRepl, matchToday_none h]

theorem matchDateAddRepl_none (vars : List (String × String)) {l : List Char}
    (h : hasDB l = false) : matchDateAddRepl vars l = Option.none := by
  match l with
  | [] => rfl
  | [_] => rfl
  | a :: b :: t =>
    simp only [hasDB, Bool.or_eq_false_iff, Bool.and_eq_false_iff] at h
    have : ¬(a = '$' ∧ b = '{') := by
      rcases h.1 with h1 | h1 <;> simp_all
    simp [matchDateAddRepl, this]

theorem matchVarRepl_none (env vars : List (String × String)) {l : List Char}
    (h : hasDB l = false) : matchVarRepl env vars l = Option.none := by
  match l with
  | [] => rfl
  | [_] => rfl
  | a :: b :: t =>
    simp only [hasDB, Bool.or_eq_false_iff, Bool.and_eq_false_iff] at h
    have : ¬(a = '$' ∧ b = '{') := by
      rcases h.1 with h1 | h1 <;> simp_all
    simp [matchVarRepl, this]

theorem substAux_id {m : List Char → Option (List Char × List Char)}
    (H : ∀ l, hasDB l = false → m l = Option.none) :
    ∀ n l, hasDB l = false → substAux m n l = l := by
  intro n
  induction n with
  | zero => intro l _; rfl
  | succ k ih =>
    intro l h
    cases l with
    | nil => rfl
    | cons c cs =>
      simp only [substAux, H _ h]
      exact congrArg (c :: ·) (ih cs (hasDB_tail h))

theorem subst_id {m : List Char → Option (List Char × List Char)}
    (H : ∀ l, hasDB l = false → m l = Option.none) {l : List Char}
    (h : hasDB l = false) : subst m l = l :=
  substAux_id H l.length l h

/-- C8: `_resolve_variable` is the identity on strings containing no
`${...}` placeholder (no occurrence of the `${` lead-in of the three
substitution patterns), and returns any non-string value unchanged. -/
theorem resolve_id_without_placeholders :
    (∀ (env vars : List (String × String)) (today : Date) (s : String),
      hasDB s.data = false → resolveStr env vars today s = s) ∧
    (∀ (env vars : List (String × String)) (today : Date) (v : PyVal),
      (∀ s, v ≠ PyVal.str s) → resolveValue env vars today v = v) := by
  constructor
  · intro env vars today s h
    unfold resolveStr
    rw [subst_id (fun _ => matchTodayRepl_none today) h,
      subst_id (fun _ => matchDateAddRepl_none vars) h,
      subst_id (fun _ => matchVarRepl_none env vars) h]
  · intro env vars today v hv
    cases v with
    | str s => exact absurd rfl (hv s)
    | _ => rfl

/-- Witness for C8 at concrete inputs. -/
theorem resolve_id_without_placeholders_witness :
    resolveStr [] [] ⟨2024, 5, 7⟩ "plain text, no placeholders" =
      "plain text, no placeholders" ∧
    resolveValue [] [] ⟨2024, 5, 7⟩ (PyVal.int 7) = PyVal.int 7 :=
  ⟨resolve_id_without_placeholders.1 [] [] ⟨2024, 5, 7⟩
      "plain text, no placeholders" (by decide),
   resolve_id_without_placeholders.2 [] [] ⟨2024, 5, 7⟩ (PyVal.int 7)
      (by intro s h; exact PyVal.noConfusion h)⟩

/-- C3 counterexample: with the store `{start: "01 Mar 2024"}`, the
spec's example placeholder `${DATE_ADD:start:30:yyyy-MM-dd}` does NOT
resolve to `"2024-03-31"`: the engine formats with Python `strftime`,
which emits the Java-style pattern `yyyy-MM-dd` literally. -/
theorem dateAdd_javaFormat_counterexample :
    resolveStr [] [("start", "01 Mar 2024")] ⟨2024, 1, 1⟩
        "$\x7bDATE_ADD:start:30:yyyy-MM-dd\x7d" = "yyyy-MM-dd" ∧
    ("yyyy-MM-dd" : String) ≠ "2024-03-31" := by
  constructor
  · decide
  · decide

/-- C3 as amended: the placeholder's format is a Python `strftime`
pattern, so `${DATE_ADD:start:30:%Y-%m-%d}` with store
`{start: "01 Mar 2024"}` resolves to `"2024-03-31"` (date parsed, 30
days added, rendered in the given format); an unset or unparsable
variable substitutes the empty string. -/
theorem dateAdd_resolution :
    resolveStr [] [("start", "01 Mar 2024")] ⟨2024, 1, 1⟩
        "$\x7bDATE_ADD:start:30:%Y-%m-%d\x7d" = "2024-03-31" ∧
    resolveStr [] [] ⟨2024, 1, 1⟩
        "$\x7bDATE_ADD:start:30:%Y-%m-%d\x7d" = "" ∧
    resolveStr [] [("start", "not a date")] ⟨2024, 1, 1⟩
        "$\x7bDATE_ADD:start:30:%Y-%m-%d\x7d" = "" := by
  refine ⟨by decide, by decide, by decide⟩

/-! ### Engine dispatch claims -/

theorem gsi_go_not_found (stepId : String) :
    ∀ (l : List Step) (base : Int), (∀ s ∈ l, s.id ≠ stepId) →
      getStepIndex.go stepId l base = -1 := by
  intro l
  induction l with
  | nil => intro base _; rfl
  | cons s rest ih =>
    intro base hall
    have hs : s.id ≠ stepId := hall s (List.mem_cons_self s rest)
    simp only [getStepIndex.go, if_neg hs]
    exact ih (base + 1) (fun x hx => hall x (List.mem_cons_of_mem s hx))

theorem gsi_go_found (stepId : String) :
    ∀ (l : List Step) (base j : Nat),
      getStepIndex.go stepId l (base : Int) = (j : Int) →
      base ≤ j ∧ (l[j - base]?).map Step.id = some stepId := by
  intro l
  induction l with
  | nil =>
    intro base j hgo
    simp only [getStepIndex.go] at hgo
    omega
  | cons s rest ih =>
    intro base j hgo
    by_cases hs : s.id = stepId
    · simp only [getStepIndex.go, if_pos hs] at hgo
      have hbj : base = j := by exact_mod_cast hgo
      subst hbj
      simp [hs]
    · simp only [getStepIndex.go, if_neg hs] at hgo
      have hgo' : getStepIndex.go stepId rest ((base + 1 : Nat) : Int) =
          (j : Int) := by
        rw [← hgo]
        norm_num
      obtain ⟨hle, hmem⟩ := ih (base + 1) j hgo'
      refine ⟨by omega, ?_⟩
      have hidx : j - base = (j - (base + 1)) + 1 := by omega
      rw [hidx]
      simpa using hmem

theorem gsi_go_neg_imp (stepId : String) :
    ∀ (l : List Step) (base : Nat),
      getStepIndex.go stepId l (base : Int) = -1 →
      ∀ s ∈ l, s.id ≠ stepId := by
  intro l
  induction l with
  | nil => intro base _ s hs; exact absurd hs (List.not_mem_nil s)
  | cons a rest ih =>
    intro base hgo s hs
    by_cases ha : a.id = stepId
    · simp only [getStepIndex.go, if_pos ha] at hgo
      omega
    · simp only [getStepIndex.go, if_neg ha] at hgo
      rcases List.mem_cons.mp hs with rfl | hmem
      · exact ha
      · have hgo' : getStepIndex.go stepId rest ((base + 1 : Nat) : Int) =
            -1 := by
          rw [← hgo]
          norm_num
        exact ih (base + 1) hgo' s hmem

/-- C5: on a handler success returning a jump target `t` (non-empty),
the loop continues at `index(t)` when the linear id scan finds it and
at `i + 1` otherwise; the scan result is sound (a found index holds the
step with id `t`) and complete (`-1` exactly when no step has id `t`). -/
theorem jump_target_resolution
    (h : Step → HandlerOutcome) (steps : List Step) (fuel i : Nat)
    (st : WfState) (tr : List String) (step : Step) (t : String)
    (hstep : steps[i]? = some step)
    (hact : knownActions.contains step.action = true)
    (hret : h step = .ret (some t)) (ht : t ≠ "") :
    (runFrom h steps (fuel + 1) i st tr =
      runFrom h steps fuel
        (if 0 ≤ getStepIndex steps t then (getStepIndex steps t).toNat
         else i + 1)
        { st with
            currentStep := some step.id
            completedSteps := st.completedSteps ++ [step.id] }
        (tr ++ [step.id])) ∧
    (∀ j : Nat, getStepIndex steps t = (j : Int) →
      (steps[j]?).map Step.id = some t) ∧
    (getStepIndex steps t = -1 ↔ ∀ s ∈ steps, s.id ≠ t) := by
  have hact' : step.action ∈ knownActions := by simpa using hact
  refine ⟨?_, ?_, Iff.intro ?_ ?_⟩
  · simp only [runFrom, hstep, executeStep, hret]
    simp [hact', ht]
  · intro j hj
    have := gsi_go_found t steps 0 j (by simpa [getStepIndex] using hj)
    simpa using this.2
  · intro hneg
    exact gsi_go_neg_imp t steps 0 (by simpa [getStepIndex] using hneg)
  · intro hall
    have := gsi_go_not_found t steps (0 : Int) hall
    simpa [getStepIndex] using this

/-- Witness for C5: a `check_url` handler returning target `"C"` jumps
over `B` straight to `C`. -/
theorem jump_target_resolution_witness :
    runFrom (fun s => if s.id = "A" then .ret (some "C") else .ret Option.none)
      [⟨"A", "check_url", Option.none⟩, ⟨"B", "click", Option.none⟩,
        ⟨"C", "click", Option.none⟩] 1 0 {} [] =
    runFrom (fun s => if s.id = "A" then .ret (some "C") else .ret Option.none)
      [⟨"A", "check_url", Option.none⟩, ⟨"B", "click", Option.none⟩,
        ⟨"C", "click", Option.none⟩] 0 2 ⟨some "A", ["A"], []⟩ ["A"] := by
  have := (jump_target_resolution
    (fun s => if s.id = "A" then .ret (some "C") else .ret Option.none)
    [⟨"A", "check_url", Option.none⟩, ⟨"B", "click", Option.none⟩,
      ⟨"C", "click", Option.none⟩] 0 0 {} [] ⟨"A", "check_url", Option.none⟩
    "C" (by decide) (by decide) (by decide) (by decide)).1
  simpa using this

/-- C1: a non-optional step raising `StepFailedError` aborts the run:
no completed steps, exactly one fatal (`fatal=True`) error entry, the
second step never dispatched, final status failed. -/
theorem fatal_failure_aborts
    (A B : Step) (h : Step → HandlerOutcome) (msg : String) (fuel : Nat)
    (hA : knownActions.contains A.action = true)
    (hfail : h A = .failStep msg) :
    runWorkflow h [A, B] (fuel + 1) =
      ⟨⟨some A.id, [], [⟨some A.id, msg, some true⟩]⟩, .failed, [A.id]⟩ := by
  have hA' : A.action ∈ knownActions := by simpa using hA
  simp [runWorkflow, runFrom, executeStep, hA', hfail]

/-- Witness for C1. -/
theorem fatal_failure_aborts_witness :
    runWorkflow
      (fun s => if s.id = "A" then .failStep "boom" else .ret Option.none)
      [⟨"A", "click", Option.none⟩, ⟨"B", "click", Option.none⟩] 1 =
      ⟨⟨some "A", [], [⟨some "A", "boom", some true⟩]⟩, .failed, ["A"]⟩ :=
  fatal_failure_aborts ⟨"A", "click", Option.none⟩ ⟨"B", "click", Option.none⟩
    _ "boom" 0 (by decide) (by decide)

/-- C2 counterexample: in the `[A(on_error=C), B, C]` scenario the
single error entry recorded for `A` carries no `fatal` field at all
(the dict literal is `{'step': ..., 'error': ...}`), so it is not
recorded with `fatal=false` as the claim states. -/
theorem soft_error_fatal_field_counterexample :
    (runWorkflow cexHandler cexSteps 4).state.errors =
      [⟨some "A", "oops", Option.none⟩] ∧
    (runWorkflow cexHandler cexSteps 4).state.errors.map ErrorEntry.fatal =
      [Option.none] ∧
    (Option.none : Option Bool) ≠ some false := by
  refine ⟨by decide, by decide, by decide⟩

/-- C2 as amended: with steps `[A(on_error=C), B, C]` where `A`'s
handler raises a non-`StepFailure` exception, the engine dispatches `A`
then `C` and never `B`, records exactly one error entry for `A` —
without a fatal marker (no `fatal` key), i.e. not marked fatal — and
completes; and when a step whose handler raises such an exception
declares no `on_error` target, the generic catch returns `None` and the
loop falls through to the next index `i + 1` (the error entry recorded
the same way). -/
theorem soft_error_branch :
    (∀ (A B C : Step) (h : Step → HandlerOutcome) (msg : String)
        (fuel : Nat),
      knownActions.contains A.action = true →
      knownActions.contains C.action = true →
      h A = .exn msg →
      h C = .ret Option.none →
      A.onError = some C.id →
      C.id ≠ "" → A.id ≠ C.id → B.id ≠ C.id →
      runWorkflow h [A, B, C] (fuel + 3) =
        ⟨⟨some C.id, [C.id], [⟨some A.id, msg, Option.none⟩]⟩, .completed,
          [A.id, C.id]⟩) ∧
    (∀ (h : Step → HandlerOutcome) (steps : List Step) (fuel i : Nat)
        (st : WfState) (tr : List String) (step : Step) (msg : String),
      steps[i]? = some step →
      knownActions.contains step.action = true →
      h step = .exn msg →
      step.onError = Option.none →
      runFrom h steps (fuel + 1) i st tr =
        runFrom h steps fuel (i + 1)
          { st with
              currentStep := some step.id
              errors := st.errors ++ [⟨some step.id, msg, Option.none⟩] }
          (tr ++ [step.id])) := by
  constructor
  · intro A B C h msg fuel hA hC hexn hCret hOE hCid hAC hBC
    have hA' : A.action ∈ knownActions := by simpa using hA
    have hC' : C.action ∈ knownActions := by simpa using hC
    have hgo : getStepIndex [A, B, C] C.id = 2 := by
      simp [getStepIndex, getStepIndex.go, hAC, hBC]
    simp [runWorkflow, runFrom, executeStep, hA', hC', hexn, hCret, hOE,
      hCid, hgo]
  · intro h steps fuel i st tr step msg hstep hact hexn hOE
    have hact' : step.action ∈ knownActions := by simpa using hact
    simp only [runFrom, hstep, executeStep, hexn, hOE]
    simp [hact']

/-- Witness for C2's amended theorem: the jump scenario, and the same
failing handler on a step with no `on_error` target falling through to
index 1. -/
theorem soft_error_branch_witness :
    (runWorkflow cexHandler cexSteps 3 =
      ⟨⟨some "C", ["C"], [⟨some "A", "oops", Option.none⟩]⟩, .completed,
        ["A", "C"]⟩) ∧
    (runFrom cexHandler
        [⟨"A", "click", Option.none⟩, ⟨"B", "click", Option.none⟩] 1 0 {} [] =
      runFrom cexHandler
        [⟨"A", "click", Option.none⟩, ⟨"B", "click", Option.none⟩] 0 1
        ⟨some "A", [], [⟨some "A", "oops", Option.none⟩]⟩ ["A"]) :=
  ⟨soft_error_branch.1 ⟨"A", "click", some "C"⟩ ⟨"B", "click", Option.none⟩
      ⟨"C", "click", Option.none⟩ cexHandler "oops" 0 (by decide) (by decide)
      (by decide) (by decide) (by decide) (by decide) (by decide) (by decide),
   soft_error_branch.2 cexHandler
      [⟨"A", "click", Option.none⟩, ⟨"B", "click", Option.none⟩] 0 0 {} []
      ⟨"A", "click", Option.none⟩ "oops" (by decide) (by decide) (by decide)
      (by decide)⟩

/-- C10: `completed_steps` is append-only; a dispatch whose handler
returns (with or without a jump target) appends exactly that step's id;
a dispatch whose handler raises appends nothing; an unknown action is a
non-fatal no-op fall-through that never reaches a handler and appends
nothing. -/
theorem completed_steps_append_only :
    (∀ (h : Step → HandlerOutcome) (st : WfState) (step : Step),
      (executeStep h st step).state.completedSteps =
        st.completedSteps ++
          (if knownActions.contains step.action then
            match h step with
            | .ret _ => [step.id]
            | .failStep _ => []
            | .exn _ => []
          else [])) ∧
    (∀ (h : Step → HandlerOutcome) (st : WfState) (step : Step),
      knownActions.contains step.action = false →
      executeStep h st step =
        ⟨{ st with currentStep := some step.id }, .ok Option.none, []⟩) ∧
    (∀ (h : Step → HandlerOutcome) (steps : List Step) (fuel i : Nat)
      (st : WfState) (tr : List String),
      ∃ l, (runFrom h steps fuel i st tr).state.completedSteps =
        st.completedSteps ++ l) := by
  have hexec : ∀ (h : Step → HandlerOutcome) (st : WfState) (step : Step),
      (executeStep h st step).state.completedSteps =
        st.completedSteps ++
          (if knownActions.contains step.action then
            match h step with
            | .ret _ => [step.id]
            | .failStep _ => []
            | .exn _ => []
          else []) := by
    intro h st step
    by_cases hk : step.action ∈ knownActions
    · cases hout : h step <;> simp [executeStep, hout, hk]
    · simp [executeStep, hk]
  refine ⟨hexec, ?_, ?_⟩
  · intro h st step hk
    have hk' : step.action ∉ knownActions := by simpa using hk
    simp [executeStep, hk']
  · intro h steps fuel
    induction fuel with
    | zero => intro i st tr; exact ⟨[], by simp [runFrom]⟩
    | succ k ih =>
      intro i st tr
      cases hstep : steps[i]? with
      | none => exact ⟨[], by simp [runFrom, hstep]⟩
      | some step =>
        cases hres : (executeStep h st step).result with
        | raisedFail m =>
          refine ⟨(if knownActions.contains step.action then
            match h step with
            | .ret _ => [step.id]
            | .failStep _ => []
            | .exn _ => []
          else []), ?_⟩
          simp only [runFrom, hstep, hres]
          simpa using hexec h st step
        | ok t =>
          obtain ⟨l, hl⟩ := ih _
            (executeStep h st step).state
            (tr ++ (executeStep h st step).dispatched)
          refine ⟨(if knownActions.contains step.action then
            match h step with
            | .ret _ => [step.id]
            | .failStep _ => []
            | .exn _ => []
          else []) ++ l, ?_⟩
          simp only [runFrom, hstep, hres]
          rw [hl, hexec h st step, List.append_assoc]

/-- Witness for C10: an unknown action kind is skipped without touching
`completed_steps`. -/
theorem completed_steps_append_only_witness :
    executeStep (fun _ => .ret Option.none) {} ⟨"A", "nonsense", Option.none⟩ =
      ⟨⟨some "A", [], []⟩, .ok Option.none, []⟩ :=
  completed_steps_append_only.2.1 (fun _ => .ret Option.none) {}
    ⟨"A", "nonsense", Option.none⟩ (by decide)

/-! ### Loop filter claim (C4) -/

/-- C4: in both loop sub-engines, with a configured (and parsable)
filter date an item whose extracted date parses is processed iff that
date is ≥ the filter date (inclusive); without a filter date every
discovered item passes; the vat partition keeps exactly the passing
items; and on the concrete scenario (filter `01 Apr 2024`, item dates
31 Mar / 01 Apr / 15 Apr 2024) both loops process exactly 2 items and
skip 1. -/
theorem loop_filter_inclusive :
    (∀ (fd : Date) (it : VatItem) (d : Date),
      parseDate it.startDate = some d →
      (vatFilterPass (some fd) it = true ↔ fd.leB d = true)) ∧
    (∀ it : VatItem, vatFilterPass Option.none it = true) ∧
    (∀ (fd : Option Date) (items : List VatItem) (it : VatItem),
      it ∈ (vatPartition fd items).1 ↔
        it ∈ items ∧ vatFilterPass fd it = true) ∧
    (∀ (fd : Date) (mode txt : String) (d : Date),
      extractDateFromRange txt mode = some d → txt ≠ "" →
      (elemFilterPass (some fd) true mode (some txt) = true ↔
        fd.leB d = true)) ∧
    (∀ (dfp : Bool) (mode : String) (dtxt : Option String),
      elemFilterPass Option.none dfp mode dtxt = true) ∧
    ((vatLoop vatItems3 (some "01 Apr 2024") false id Option.none
        (fun _ => true) (fun _ => false) (fun _ => true) []).processed = 2 ∧
     (vatLoop vatItems3 (some "01 Apr 2024") false id Option.none
        (fun _ => true) (fun _ => false) (fun _ => true) []).skipped.length
        = 1) ∧
    ((elementsLoop 3 (some "01 Apr 2024") id true "start" elemDates3 false
        (fun _ => .clicked) (fun _ => true) false []).processed = 2 ∧
     (elementsLoop 3 (some "01 Apr 2024") id true "start" elemDates3 false
        (fun _ => .clicked) (fun _ => true) false []).skipped = 1) := by
  refine ⟨?_, ?_, ?_, ?_, ?_, ⟨by decide, by decide⟩, ⟨by decide, by decide⟩⟩
  · intro fd it d hparse
    simp [vatFilterPass, hparse, Date.ltB, Date.leB, Int.not_lt]
  · intro it
    rfl
  · intro fd items it
    simp [vatPartition, List.mem_filter]
  · intro fd mode txt d hextract htxt
    simp [elemFilterPass, htxt, hextract, Date.ltB, Date.leB, Int.not_lt]
  · intro dfp mode dtxt
    rfl

/-- Witness for C4 at the inclusive boundary: a VAT return starting
exactly on the filter date passes the filter. -/
theorem loop_filter_inclusive_witness :
    vatFilterPass (some ⟨2024, 4, 1⟩)
      ⟨"01 Apr 2024 - 30 Jun 2024", "01 Apr 2024", "30 Jun 2024", "b2"⟩ =
        true ↔ Date.leB ⟨2024, 4, 1⟩ ⟨2024, 4, 1⟩ = true :=
  loop_filter_inclusive.1 ⟨2024, 4, 1⟩
    ⟨"01 Apr 2024 - 30 Jun 2024", "01 Apr 2024", "30 Jun 2024", "b2"⟩
    ⟨2024, 4, 1⟩ (by decide)

/-! ### Column-selection idempotence (C6) -/

theorem selectPhase_no_attempts (checkedNow : List String)
    (sOk : String → Bool) :
    ∀ cols : List ColSpec,
      (∀ s ∈ requiredSelectors cols, checkedNow.contains s = true) →
      (selectPhase checkedNow sOk cols).1 = [] := by
  intro cols
  induction cols with
  | nil => intro _; rfl
  | cons c rest ih =>
    intro hall
    have hrest : ∀ s ∈ requiredSelectors rest, checkedNow.contains s = true := by
      intro s hs
      refine hall s ?_
      simp only [requiredSelectors, List.filterMap_cons]
      cases hc : c.selector with
      | none => simpa [requiredSelectors] using hs
      | some v =>
        by_cases hv : v = "" <;>
          simp_all [requiredSelectors]
    cases hc : c.selector with
    | none =>
      simp only [selectPhase, hc]
      exact ih hrest
    | some s =>
      by_cases hs : s = ""
      · simp only [selectPhase, hc, hs, if_pos rfl]
        simpa using ih hrest
      · have hmem : s ∈ requiredSelectors (c :: rest) := by
          simp [requiredSelectors, List.filterMap_cons, hc, hs]
        have hck : checkedNow.contains s = true := hall s hmem
        simp only [selectPhase, hc, if_neg hs, hck]
        simpa [hs, hck] using ih hrest

/-- C6: `select_columns` is idempotent on an already-correct page — if
the set of checked column selectors coincides with the required list,
the handler performs zero toggle (click) actions: nothing is
deselected and nothing is clicked to select. -/
theorem select_columns_idempotent
    (cols : List ColSpec) (checked : List String)
    (dOk sOk : String → Bool) (opt : Bool)
    (h1 : ∀ s ∈ checked, s ∈ requiredSelectors cols)
    (h2 : ∀ s ∈ requiredSelectors cols, s ∈ checked) :
    (selectColumns cols checked dOk sOk opt).attempts = [] := by
  have hdesel : checked.filter
      (fun c => !((requiredSelectors cols).contains c)) = [] := by
    rw [List.filter_eq_nil_iff]
    intro a ha
    simp [h1 a ha]
  have hkeep : checked.filter
      (fun c => !(!((requiredSelectors cols).contains c) && dOk c)) =
      checked := by
    rw [List.filter_eq_self]
    intro a ha
    simp [h1 a ha]
  have hphase : (selectPhase checked sOk cols).1 = [] :=
    selectPhase_no_attempts checked sOk cols
      (fun s hs => by simpa using h2 s hs)
  simp only [selectColumns, hdesel, hkeep, hphase]
  rfl

/-- Witness for C6: two required columns, both already checked — no
toggles. -/
theorem select_columns_idempotent_witness :
    (selectColumns [⟨some "s1", some "A"⟩, ⟨some "s2", some "B"⟩]
      ["s1", "s2"] (fun _ => true) (fun _ => true) false).attempts = [] :=
  select_columns_idempotent _ _ _ _ _ (by decide) (by decide)

/-! ### Download filename determinism and shape (C7) -/

/-- C7: the download filename depends only on the workflow identity,
company name, extension and the two captured date-range variables (so
repeated runs with equal inputs produce identical names); the
characters `< > : " / \ | ? *` never survive into the sanitised
company name; for VAT (date-ranged) report types with both period
variables set the filename is the report code, `VAT`, the compact
`ddMMyyyy-ddMMyyyy` range and the sanitised company; for other mapped
report types it is the numeric code, report name and sanitised
company; and the compact form of `01 Apr 2024` is `01042024`. -/
theorem download_filename_spec :
    (∀ (vars vars' : List (String × String)) (wf comp ext : String),
      lookupD vars "vat_return_start_date" "" =
        lookupD vars' "vat_return_start_date" "" →
      lookupD vars "vat_return_end_date" "" =
        lookupD vars' "vat_return_end_date" "" →
      formatDownloadFilename vars wf comp ext =
        formatDownloadFilename vars' wf comp ext) ∧
    (∀ (comp : String) (c : Char), c ∈ filenameBadChars → comp ≠ "" →
      c ∉ (safeCompany comp).data) ∧
    (∀ (vars : List (String × String)) (wf comp ext : String),
      (getReportPrefixInfo wf).2.2 = true →
      lookupD vars "vat_return_start_date" "" ≠ "" →
      lookupD vars "vat_return_end_date" "" ≠ "" →
      (formatDownloadFilename vars wf comp ext).1 =
        (getReportPrefixInfo wf).1 ++ " VAT_" ++
          formatDateCompact (lookupD vars "vat_return_start_date" "") ++
          "-" ++
          formatDateCompact (lookupD vars "vat_return_end_date" "") ++
          "_" ++ safeCompany comp ++ ext) ∧
    (∀ (vars : List (String × String)) (wf comp ext : String),
      (getReportPrefixInfo wf).2.2 = false →
      (getReportPrefixInfo wf).1 ≠ "" →
      (formatDownloadFilename vars wf comp ext).1 =
        (getReportPrefixInfo wf).1 ++ " " ++ (getReportPrefixInfo wf).2.1 ++
          "_" ++ safeCompany comp ++ ext) ∧
    (formatDateCompact "01 Apr 2024" = "01042024") := by
  refine ⟨?_, ?_, ?_, ?_, by decide⟩
  · intro vars vars' wf comp ext h1 h2
    unfold formatDownloadFilename
    rw [h1, h2]
  · intro comp c hc hne
    simp only [safeCompany, if_pos hne]
    intro hmem
    have := List.of_mem_filter hmem
    simp_all
  · intro vars wf comp ext hvat h1 h2
    rcases hp : getReportPrefixInfo wf with ⟨np, rn, iv⟩
    rw [hp] at hvat
    simp only at hvat
    subst hvat
    simp only [formatDownloadFilename, hp, h1, h2, if_pos (And.intro h1 h2)]
    simp [String.append_assoc]
  · intro vars wf comp ext hvat hnp
    rcases hp : getReportPrefixInfo wf with ⟨np, rn, iv⟩
    rw [hp] at hvat hnp
    simp only at hvat hnp
    subst hvat
    simp only [formatDownloadFilename, hp]
    simp [hnp, String.append_assoc]

/-- Witness for C7: a VAT download with both period variables set. -/
theorem download_filename_spec_witness :
    (formatDownloadFilename
      [("vat_return_start_date", "01 Apr 2024"),
       ("vat_return_end_date", "30 Jun 2024")]
      "vat_returns" "A/B:C*" ".pdf").1 =
    (getReportPrefixInfo "vat_returns").1 ++ " VAT_" ++
      formatDateCompact (lookupD
        [("vat_return_start_date", "01 Apr 2024"),
         ("vat_return_end_date", "30 Jun 2024")]
        "vat_return_start_date" "") ++ "-" ++
      formatDateCompact (lookupD
        [("vat_return_start_date", "01 Apr 2024"),
         ("vat_return_end_date", "30 Jun 2024")]
        "vat_return_end_date" "") ++ "_" ++
      safeCompany "A/B:C*" ++ ".pdf" :=
  download_filename_spec.2.2.1
    [("vat_return_start_date", "01 Apr 2024"),
     ("vat_return_end_date", "30 Jun 2024")]
    "vat_returns" "A/B:C*" ".pdf" (by decide) (by decide) (by decide)

/-! ### Loop processed-count claim (C9) -/

theorem find?_map_update (k : String) (v : PyVal) :
    ∀ vars : List (String × PyVal),
      (vars.map (fun p => if p.1 = k then (k, v) else p)).find?
        (fun p => p.1 = k) =
      (vars.find? (fun p => p.1 = k)).map (fun _ => (k, v)) := by
  intro vars
  induction vars with
  | nil => rfl
  | cons p rest ih =>
    by_cases hp : p.1 = k
    · simp [List.find?_cons, hp]
    · simp [List.find?_cons, hp, ih]

theorem find?_append_single (k : String) (v : PyVal) :
    ∀ vars : List (String × PyVal),
      vars.any (fun p => p.1 = k) = false →
      (vars ++ [(k, v)]).find? (fun p => p.1 = k) = some (k, v) := by
  intro vars
  induction vars with
  | nil => intro _; simp [List.find?_cons]
  | cons p rest ih =>
    intro h
    simp only [List.any_cons, Bool.or_eq_false_iff] at h
    have hp : ¬(p.1 = k) := by simpa using h.1
    simp [List.find?_cons, hp, ih h.2]

/-- Storing a key then reading it back yields the stored value. -/
theorem lookupPy_storePy (vars : List (String × PyVal)) (k : String)
    (v : PyVal) : lookupPy (storePy vars k v) k = some v := by
  unfold storePy lookupPy
  by_cases h : vars.any (fun p => p.1 = k) = true
  · simp only [h, if_true]
    rw [find?_map_update]
    obtain ⟨x, hx, hpx⟩ := List.any_eq_true.mp h
    have hsome : (vars.find? (fun p => p.1 = k)).isSome :=
      List.find?_isSome.mpr ⟨x, hx, hpx⟩
    obtain ⟨y, hy⟩ := Option.isSome_iff_exists.mp hsome
    rw [hy]
    rfl
  · have h' : vars.any (fun p => p.1 = k) = false := Bool.eq_false_iff.mpr h
    simp only [h', Bool.false_eq_true, if_false]
    rw [find?_append_single k v vars h']
    rfl

/-- In the VAT loop with a successful click and no preparation prompt
on every item and pairwise-distinct button ids, exactly the items whose
sub-steps all succeed are counted, in processing order. -/
theorem vatProcessGo_spec (subOk : VatItem → Bool) (total : Nat) :
    ∀ (l : List VatItem) (i : Nat) (ids : List String) (count : Nat)
      (plist : List VatItem) (vars : List (String × PyVal)),
      (∀ it ∈ l, ids.contains it.buttonId = false) →
      (l.map (fun it => it.buttonId)).Nodup →
      (vatProcessGo (fun _ => true) (fun _ => false) subOk total l i ids
          count plist vars).1 = count + (l.filter subOk).length ∧
      (vatProcessGo (fun _ => true) (fun _ => false) subOk total l i ids
          count plist vars).2.1 = plist ++ l.filter subOk := by
  intro l
  induction l with
  | nil =>
    intro i ids count plist vars _ _
    exact ⟨by simp [vatProcessGo], by simp [vatProcessGo]⟩
  | cons it rest ih =>
    intro i ids count plist vars hids hnodup
    have hid : ids.contains it.buttonId = false :=
      hids it (List.mem_cons_self it rest)
    rw [List.map_cons] at hnodup
    have hnd := List.nodup_cons.mp hnodup
    have hrest_ids : ∀ x ∈ rest,
        (ids ++ [it.buttonId]).contains x.buttonId = false := by
      intro x hx
      have h1 : ids.contains x.buttonId = false :=
        hids x (List.mem_cons_of_mem _ hx)
      have h2 : x.buttonId ≠ it.buttonId := by
        intro heq
        exact hnd.1 (heq ▸ List.mem_map_of_mem (fun y => y.buttonId) hx)
      simp only [List.elem_eq_mem] at h1 ⊢
      simp only [Bool.not_eq_true', decide_eq_false_iff_not] at h1
      simp [h1, h2]
    by_cases hsub : subOk it = true
    · constructor
      · simp only [vatProcessGo, hid, hsub, Bool.false_eq_true, if_false,
          Bool.not_true, Bool.not_false, if_true]
        rw [(ih (i + 1) (ids ++ [it.buttonId]) (count + 1) (plist ++ [it]) _
          hrest_ids hnd.2).1]
        simp only [List.filter_cons, hsub, if_true, List.length_cons]
        omega
      · simp only [vatProcessGo, hid, hsub, Bool.false_eq_true, if_false,
          Bool.not_true, Bool.not_false, if_true]
        rw [(ih (i + 1) (ids ++ [it.buttonId]) (count + 1) (plist ++ [it]) _
          hrest_ids hnd.2).2]
        simp [List.filter_cons, hsub, List.append_assoc]
    · have hsub' : subOk it = false := Bool.eq_false_iff.mpr hsub
      constructor
      · simp only [vatProcessGo, hid, hsub', Bool.false_eq_true, if_false,
          Bool.not_true, Bool.not_false, if_true]
        rw [(ih (i + 1) (ids ++ [it.buttonId]) count plist _
          hrest_ids hnd.2).1]
        simp [List.filter_cons, hsub']
      · simp only [vatProcessGo, hid, hsub', Bool.false_eq_true, if_false,
          Bool.not_true, Bool.not_false, if_true]
        rw [(ih (i + 1) (ids ++ [it.buttonId]) count plist _
          hrest_ids hnd.2).2]
        simp [List.filter_cons, hsub']

/-- In the elements loop without filter or action selector, every item
reaches the sub-step phase and is counted regardless of `subOk`. -/
theorem elemGo_benign (subOk : Nat → Bool) :
    ∀ (l : List Nat) (p s : Nat) (ord : List Nat),
      elemGo Option.none false "start" (fun _ => Option.none) false
        (fun _ => .clicked) subOk l p s ord = (p + l.length, s, ord ++ l) := by
  intro l
  induction l with
  | nil => intro p s ord; simp [elemGo]
  | cons i rest ih =>
    intro p s ord
    simp only [elemGo, elemFilterPass, Bool.not_true, Bool.false_eq_true,
      if_false, false_and, if_true]
    rw [ih]
    have harith : p + 1 + rest.length = p + (rest.length + 1) := by omega
    simp [harith, List.append_assoc]

/-- C9 counterexample: in `_execute_loop_elements`, an item whose
sub-steps fail IS still counted — with 3 items and item 1's sub-steps
failing, `loop_processed_count` is stored as 3, not 2. -/
theorem elements_loop_counts_failed_counterexample :
    (elementsLoop 3 Option.none id false "start" (fun _ => Option.none)
      false (fun _ => .clicked) (fun i => decide (i ≠ 1)) true []).processed
      = 3 ∧
    lookupPy (elementsLoop 3 Option.none id false "start"
      (fun _ => Option.none) false (fun _ => .clicked)
      (fun i => decide (i ≠ 1)) true []).vars "loop_processed_count" =
      some (.int 3) ∧
    ¬ ((elementsLoop 3 Option.none id false "start" (fun _ => Option.none)
      false (fun _ => .clicked) (fun i => decide (i ≠ 1)) true []).processed
      = 2) :=
  ⟨rfl, rfl, by decide⟩

/-- C9 as amended: both loops store the processed count under
`loop_processed_count` and, with `reverseOrder`, process in reverse
discovery order; in the VAT loop only items whose sub-steps all succeed
are counted (so all 3 of 3 items when everything succeeds, and a
failing item is not counted), while in the elements loop the count
includes every item that reaches its sub-step phase even if its
sub-steps fail. -/
theorem loop_processed_count_spec :
    (∀ (items : List VatItem) (subOk : VatItem → Bool)
        (vars0 : List (String × PyVal)),
      (items.map (fun it => it.buttonId)).Nodup →
      ((vatLoop items Option.none true id Option.none (fun _ => true)
          (fun _ => false) subOk vars0).processed =
        (items.reverse.filter subOk).length ∧
       (vatLoop items Option.none true id Option.none (fun _ => true)
          (fun _ => false) subOk vars0).processedItems =
        items.reverse.filter subOk ∧
       lookupPy (vatLoop items Option.none true id Option.none
          (fun _ => true) (fun _ => false) subOk vars0).vars
          "loop_processed_count" =
        some (.int ((items.reverse.filter subOk).length)))) ∧
    (∀ (count : Nat) (subOk : Nat → Bool)
        (vars0 : List (String × PyVal)),
      (elementsLoop count Option.none id false "start"
          (fun _ => Option.none) false (fun _ => .clicked) subOk true
          vars0).processed = count ∧
      (elementsLoop count Option.none id false "start"
          (fun _ => Option.none) false (fun _ => .clicked) subOk true
          vars0).order = (List.range count).reverse ∧
      lookupPy (elementsLoop count Option.none id false "start"
          (fun _ => Option.none) false (fun _ => .clicked) subOk true
          vars0).vars "loop_processed_count" = some (.int count)) := by
  constructor
  · intro items subOk vars0 hnodup
    have hnodup' : (items.reverse.map (fun it => it.buttonId)).Nodup := by
      rw [List.map_reverse]
      exact List.nodup_reverse.mpr hnodup
    have hids : ∀ it ∈ items.reverse,
        ([] : List String).contains it.buttonId = false := by
      intro it _
      rfl
    have hfil : List.filter (vatFilterPass Option.none) items.reverse =
        items.reverse := List.filter_eq_self.mpr (fun a _ => rfl)
    have hspec := vatProcessGo_spec subOk items.reverse.length items.reverse
      0 [] 0 [] vars0 hids hnodup'
    refine ⟨?_, ?_, ?_⟩ <;>
      simp only [vatLoop, vatPartition, eq_self_iff_true, if_true, hfil]
    · rw [hspec.1]
      simp
    · rw [hspec.2]
      simp
    · rw [hspec.1, lookupPy_storePy]
      simp
  · intro count subOk vars0
    have hbenign := elemGo_benign subOk (List.range count).reverse 0 0 []
    refine ⟨?_, ?_, ?_⟩
    · simp [elementsLoop, hbenign]
    · simp [elementsLoop, hbenign]
    · simp only [elementsLoop, eq_self_iff_true, if_true]
      rw [lookupPy_storePy, hbenign]
      simp

/-- Witness for C9's amended theorem: 3 VAT returns, reverse order, all
sub-steps succeed. -/
theorem loop_processed_count_spec_witness :
    (vatLoop vatItems3 Option.none true id Option.none (fun _ => true)
      (fun _ => false) (fun _ => true) []).processed =
      (vatItems3.reverse.filter (fun _ => true)).length ∧
    (vatLoop vatItems3 Option.none true id Option.none (fun _ => true)
      (fun _ => false) (fun _ => true) []).processedItems =
      vatItems3.reverse.filter (fun _ => true) ∧
    lookupPy (vatLoop vatItems3 Option.none true id Option.none
      (fun _ => true) (fun _ => false) (fun _ => true) []).vars
      "loop_processed_count" =
      some (.int ((vatItems3.reverse.filter (fun _ => true)).length)) :=
  loop_processed_count_spec.1 vatItems3 (fun _ => true) [] (by decide)

end Xero
